import Mathlib

/-!
Verification of the core linear-algebra and scene-composition layer of the
`oxide` molecular viewer (`src/main.rs`, `src/quaternion.rs`).

The Rust code works on `f32`; the embedding models `f32` scalars as real
numbers, so every claim is settled for the ideal real-valued formulas of the
source.  Division by zero in `ℝ` is Lean's junk value `0`, which plays the
role of the IEEE `NaN`s that the source produces on degenerate inputs.
-/

noncomputable section

namespace Furnace

/-- A 3-component vector, modelling the Rust `[f32;3]` arrays used for
positions, foci and colours (`x`, `y`, `z` stand for indices 0, 1, 2). -/
structure Vec3 where
  x : ℝ
  y : ℝ
  z : ℝ

/-- `struct Matrix { _contents : [[f32;4];4] }` from `src/main.rs`.
Field `mRC` is `_contents[R][C]`. -/
structure Matrix4 where
  m00 : ℝ
  m01 : ℝ
  m02 : ℝ
  m03 : ℝ
  m10 : ℝ
  m11 : ℝ
  m12 : ℝ
  m13 : ℝ
  m20 : ℝ
  m21 : ℝ
  m22 : ℝ
  m23 : ℝ
  m30 : ℝ
  m31 : ℝ
  m32 : ℝ
  m33 : ℝ

/-- `impl Mul for Matrix` (`src/main.rs` lines 44-72): the row-by-column
product, each of the 16 entries written out as in the source. -/
def Matrix4.mul (a b : Matrix4) : Matrix4 where
  m00 := a.m00*b.m00 + a.m01*b.m10 + a.m02*b.m20 + a.m03*b.m30
  m01 := a.m00*b.m01 + a.m01*b.m11 + a.m02*b.m21 + a.m03*b.m31
  m02 := a.m00*b.m02 + a.m01*b.m12 + a.m02*b.m22 + a.m03*b.m32
  m03 := a.m00*b.m03 + a.m01*b.m13 + a.m02*b.m23 + a.m03*b.m33
  m10 := a.m10*b.m00 + a.m11*b.m10 + a.m12*b.m20 + a.m13*b.m30
  m11 := a.m10*b.m01 + a.m11*b.m11 + a.m12*b.m21 + a.m13*b.m31
  m12 := a.m10*b.m02 + a.m11*b.m12 + a.m12*b.m22 + a.m13*b.m32
  m13 := a.m10*b.m03 + a.m11*b.m13 + a.m12*b.m23 + a.m13*b.m33
  m20 := a.m20*b.m00 + a.m21*b.m10 + a.m22*b.m20 + a.m23*b.m30
  m21 := a.m20*b.m01 + a.m21*b.m11 + a.m22*b.m21 + a.m23*b.m31
  m22 := a.m20*b.m02 + a.m21*b.m12 + a.m22*b.m22 + a.m23*b.m32
  m23 := a.m20*b.m03 + a.m21*b.m13 + a.m22*b.m23 + a.m23*b.m33
  m30 := a.m30*b.m00 + a.m31*b.m10 + a.m32*b.m20 + a.m33*b.m30
  m31 := a.m30*b.m01 + a.m31*b.m11 + a.m32*b.m21 + a.m33*b.m31
  m32 := a.m30*b.m02 + a.m31*b.m12 + a.m32*b.m22 + a.m33*b.m32
  m33 := a.m30*b.m03 + a.m31*b.m13 + a.m32*b.m23 + a.m33*b.m33

/-- The all-zero matrix, `Matrix::new([[0.0;4];4])`. -/
def Matrix4.zero : Matrix4 :=
  ⟨0, 0, 0, 0, 0, 0, 0, 0, 0, 0, 0, 0, 0, 0, 0, 0⟩

/-- The upper-left 3×3 block of a 4×4 matrix, as a Mathlib matrix (used
to state orthonormality and determinant properties of rotation
matrices). -/
def Matrix4.upperLeft3 (m : Matrix4) : Matrix (Fin 3) (Fin 3) ℝ :=
  !![m.m00, m.m01, m.m02;
     m.m10, m.m11, m.m12;
     m.m20, m.m21, m.m22]

-- ============================================================
-- Quaternion (src/quaternion.rs)
-- ============================================================

/-- `struct Quaternion { _contents : [f32;4] }`; fields named after the
accessors `r()`, `i()`, `j()`, `k()` for `_contents[0..4]`. -/
structure Quaternion where
  r : ℝ
  i : ℝ
  j : ℝ
  k : ℝ

/-- `Quaternion::rotation_matrix` (`src/quaternion.rs` lines 30-41). -/
def Quaternion.rotation_matrix (q : Quaternion) : Matrix4 :=
  ⟨1.0-2.0*(q.j*q.j+q.k*q.k),     2.0*(q.i*q.j-q.k*q.r),     2.0*(q.k*q.i+q.j*q.r), 0.0,
       2.0*(q.i*q.j+q.k*q.r), 1.0-2.0*(q.k*q.k+q.i*q.i),     2.0*(q.j*q.k-q.i*q.r), 0.0,
       2.0*(q.k*q.i-q.j*q.r),     2.0*(q.j*q.k+q.i*q.r), 1.0-2.0*(q.i*q.i+q.j*q.j), 0.0,
   0.0                      , 0.0                      , 0.0                      , 1.0⟩

/-- `Quaternion::normalise` (`src/quaternion.rs` lines 43-52): sums the
squares of the four components, takes the square root, and divides each
component by it.  The Rust method mutates in place; the embedding returns
the updated value. -/
def Quaternion.normalise (q : Quaternion) : Quaternion :=
  let norm := Real.sqrt (q.r*q.r + q.i*q.i + q.j*q.j + q.k*q.k)
  ⟨q.r/norm, q.i/norm, q.j/norm, q.k/norm⟩

/-- `Quaternion::invert` (`src/quaternion.rs` lines 54-58): negates the
imaginary triple in place. -/
def Quaternion.invert (q : Quaternion) : Quaternion :=
  ⟨q.r, q.i * (-1.0), q.j * (-1.0), q.k * (-1.0)⟩

/-- `Quaternion::right_multiply` (`src/quaternion.rs` lines 61-76), with
`s` the receiver (`self`) and `o` the argument (`in_other`). -/
def Quaternion.right_multiply (s o : Quaternion) : Quaternion :=
  ⟨s.r*o.r - s.i*o.i - s.j*o.j - s.k*o.k,
   s.r*o.i + s.i*o.r + s.j*o.k - s.k*o.j,
   s.r*o.j + s.j*o.r + s.k*o.i - s.i*o.k,
   s.r*o.k + s.k*o.r + s.i*o.j - s.j*o.i⟩

/-- `Quaternion::left_multiply` (`src/quaternion.rs` lines 79-94). -/
def Quaternion.left_multiply (s o : Quaternion) : Quaternion :=
  ⟨o.r*s.r - o.i*s.i - o.j*s.j - o.k*s.k,
   o.r*s.i + o.i*s.r + o.j*s.k - o.k*s.j,
   o.r*s.j + o.j*s.r + o.k*s.i - o.i*s.k,
   o.r*s.k + o.k*s.r + o.i*s.j - o.j*s.i⟩

/-- `impl Mul<Quaternion> for Quaternion` (`src/quaternion.rs` lines
97-115), with `s` = `self` and `o` = `in_other`. -/
def Quaternion.mul (s o : Quaternion) : Quaternion :=
  ⟨s.r*o.r - s.i*o.i - s.j*o.j - s.k*o.k,
   s.r*o.i + s.i*o.r + s.j*o.k - s.k*o.j,
   s.r*o.j + s.j*o.r + s.k*o.i - s.i*o.k,
   s.r*o.k + s.k*o.r + s.i*o.j - s.j*o.i⟩

/-- Sum of the squares of the four components (the quantity `normalise`
computes before taking the square root, and the square of the Euclidean
norm of the quaternion). -/
def Quaternion.normSq (q : Quaternion) : ℝ :=
  q.r*q.r + q.i*q.i + q.j*q.j + q.k*q.k

-- ============================================================
-- Atom (src/main.rs)
-- ============================================================

/-- `struct Atom` (`src/main.rs` lines 117-123).  The Rust `_mesh` field is
a shared reference `&Mesh`; geometry plays no role in the body-matrix
claims, so the reference is modelled as an opaque identifier. -/
structure Atom where
  _mesh        : ℕ
  _position    : Vec3
  _size        : ℝ
  _colour      : Vec3
  _body_matrix : Matrix4

/-- `Atom::new` (`src/main.rs` lines 126-144): stores the inputs and
computes the body matrix once, `diag(size,size,size,1)` with the last
column holding the position. -/
def Atom.new (in_mesh : ℕ) (in_position : Vec3) (in_size : ℝ)
    (in_colour : Vec3) : Atom where
  _mesh        := in_mesh
  _position    := in_position
  _size        := in_size
  _colour      := in_colour
  _body_matrix :=
    ⟨in_size, 0.0    , 0.0    , in_position.x,
     0.0    , in_size, 0.0    , in_position.y,
     0.0    , 0.0    , in_size, in_position.z,
     0.0    , 0.0    , 0.0    , 1.0⟩

-- ============================================================
-- Camera (src/main.rs)
-- ============================================================

/-- `struct Camera` (`src/main.rs` lines 178-187). -/
structure Camera where
  _position           : Vec3
  _focus              : Vec3
  _field_of_view      : ℝ
  _near_plane         : ℝ
  _far_plane          : ℝ
  _camera_matrix      : Matrix4
  _perspective_matrix : Matrix4
  _view_matrix        : Matrix4

/-- The aspect-factor computation at the top of `Camera::new`
(`src/main.rs` lines 199-208).  The source mutates `w` and `h` in
sequence; in the `else` branch `w` is assigned `1.0` *before* `h` is
divided by `w`, so the division there is by the updated value `1.0`.
The embedding reproduces that assignment order exactly. -/
def aspectFactors (w h : ℝ) : ℝ × ℝ :=
  if w > h then
    let w1 := w / h
    let h1 := (1.0 : ℝ)
    (w1, h1)
  else
    let w1 := (1.0 : ℝ)
    let h1 := h / w1
    (w1, h1)

/-- `Camera::update` (`src/main.rs` lines 238-272): recomputes
`_camera_matrix` and `_view_matrix` from the eye-to-focus vector, leaving
every other field unchanged. -/
def Camera.update (c : Camera) : Camera :=
  let x := c._focus.x - c._position.x
  let y := c._focus.y - c._position.y
  let z := c._focus.z - c._position.z
  -- theta is the orbital angle
  let cos_theta := z/Real.sqrt (x*x+z*z)
  let sin_theta := x/Real.sqrt (x*x+z*z)
  let orbital_matrix : Matrix4 :=
    ⟨cos_theta, 0.0, -sin_theta, 0.0,
     0.0      , 1.0,  0.0      , 0.0,
     sin_theta, 0.0,  cos_theta, 0.0,
     0.0      , 0.0,  0.0      , 1.0⟩
  -- phi is the azimuthal angle
  let cos_phi := Real.sqrt (x*x+z*z)/Real.sqrt (x*x+y*y+z*z)
  let sin_phi := y/Real.sqrt (x*x+y*y+z*z)
  let azimuthal_matrix : Matrix4 :=
    ⟨1.0, 0.0    ,  0.0    , 0.0,
     0.0, cos_phi, -sin_phi, 0.0,
     0.0, sin_phi,  cos_phi, 0.0,
     0.0, 0.0    ,  0.0    , 1.0⟩
  let translation_matrix : Matrix4 :=
    ⟨1.0, 0.0, 0.0, -c._position.x,
     0.0, 1.0, 0.0, -c._position.y,
     0.0, 0.0, 1.0, -c._position.z,
     0.0, 0.0, 0.0,  1.0⟩
  let camera_matrix := (azimuthal_matrix.mul orbital_matrix).mul translation_matrix
  { c with
    _camera_matrix := camera_matrix
    _view_matrix   := c._perspective_matrix.mul camera_matrix }

/-- `Camera::new` (`src/main.rs` lines 190-232).  The framebuffer
dimensions `(w, h)` that the Rust code obtains from the display (`u32`
values cast to `f32`) are passed in as the first two arguments. -/
def Camera.new (w h : ℝ) (in_position in_focus : Vec3)
    (in_field_of_view in_near_plane in_far_plane : ℝ) : Camera :=
  let wh := aspectFactors w h
  let s := 1.0/Real.tan (in_field_of_view*Real.pi/360.0)
  let n := in_near_plane
  let f := in_far_plane
  let perspective_matrix : Matrix4 :=
    ⟨s/wh.1, 0.0   , 0.0        , 0.0,
     0.0   , s/wh.2, 0.0        , 0.0,
     0.0   , 0.0   , (f+n)/(f-n), 2.0*f*n/(n-f),
     0.0   , 0.0   , 1.0        , 0.0⟩
  Camera.update
    { _position           := in_position
      _focus              := in_focus
      _field_of_view      := in_field_of_view
      _near_plane         := in_near_plane
      _far_plane          := in_far_plane
      _camera_matrix      := Matrix4.zero
      _perspective_matrix := perspective_matrix
      _view_matrix        := Matrix4.zero }

/-- `Camera::set_position` (`src/main.rs` line 236): overwrite the eye
position, then `update`. -/
def Camera.set_position (c : Camera) (in_position : Vec3) : Camera :=
  Camera.update { c with _position := in_position }

-- ============================================================
-- Helper lemmas
-- ============================================================

/-- Euler's four-square identity for the source's Hamilton product: the
sum of squares of the components is multiplicative. -/
theorem Quaternion.normSq_mul (p q : Quaternion) :
    (p.mul q).normSq = p.normSq * q.normSq := by
  simp only [Quaternion.mul, Quaternion.normSq]
  ring

/-- `update` only rewrites the two derived matrices: the stored
perspective matrix is copied over unchanged. -/
theorem Camera.update_perspective (c : Camera) :
    (c.update)._perspective_matrix = c._perspective_matrix := rfl

/-- `update` leaves the eye position unchanged. -/
theorem Camera.update_position (c : Camera) :
    (c.update)._position = c._position := rfl

/-- `update` leaves the focus unchanged. -/
theorem Camera.update_focus (c : Camera) : (c.update)._focus = c._focus := rfl

-- ============================================================
-- Claims
-- ============================================================

/-- C1: the aspect-factor normalization evaluated at framebuffer
dimensions `(w, h) = (2, 4)`.  The code leaves the height factor at the
raw value `4` (the `else` branch divides `h` by the freshly assigned
`w = 1.0`), whereas the claimed factor `h/w` would be `2`. -/
theorem aspectFactors_eval_C1 :
    aspectFactors 2 4 = ((1 : ℝ), (4 : ℝ)) ∧ (4 : ℝ) ≠ 4 / 2 := by
  constructor
  · norm_num [aspectFactors]
  · norm_num

/-- C2: for admissible field of view and clip planes, the perspective
matrix built by `Camera::new` has diagonal scales `s` over the aspect
factors with `s = 1/tan(fov·π/360)`, depth entries `(f+n)/(f-n)` and
`2fn/(n-f)` in the `[2][2]` and `[2][3]` slots, `1` in the `[3][2]` slot,
and zeros in every remaining off-diagonal slot. -/
theorem perspective_entries_C2 (w h : ℝ) (pos focus : Vec3) (fov n f : ℝ)
    (hn : 0 < n) (hnf : n < f) (hfov0 : 0 < fov) (hfov1 : fov < 180) :
    let P := (Camera.new w h pos focus fov n f)._perspective_matrix
    let s := 1.0/Real.tan (fov*Real.pi/360.0)
    P.m00 = s/(aspectFactors w h).1 ∧ P.m11 = s/(aspectFactors w h).2 ∧
    P.m22 = (f+n)/(f-n) ∧ P.m23 = 2*f*n/(n-f) ∧ P.m32 = 1 ∧
    P.m01 = 0 ∧ P.m02 = 0 ∧ P.m03 = 0 ∧
    P.m10 = 0 ∧ P.m12 = 0 ∧ P.m13 = 0 ∧
    P.m20 = 0 ∧ P.m21 = 0 ∧ P.m30 = 0 ∧ P.m31 = 0 := by
  refine ⟨rfl, rfl, rfl, ?_, ?_, ?_, ?_, ?_, ?_, ?_, ?_, ?_, ?_, ?_, ?_⟩ <;>
    norm_num [Camera.new, Camera.update]

/-- Witness for C2 at framebuffer `(2, 1)`, eye `(0,0,2)`, focus the
origin, `fov = 90`, `n = 1`, `f = 10`. -/
theorem perspective_entries_C2_witness :
    (let P := (Camera.new 2 1 ⟨0, 0, 2⟩ ⟨0, 0, 0⟩ 90 1 10)._perspective_matrix
     let s := 1.0/Real.tan ((90:ℝ)*Real.pi/360.0)
     P.m00 = s/(aspectFactors 2 1).1 ∧ P.m11 = s/(aspectFactors 2 1).2 ∧
     P.m22 = ((10:ℝ)+1)/(10-1) ∧ P.m23 = 2*10*1/(1-10) ∧ P.m32 = 1 ∧
     P.m01 = 0 ∧ P.m02 = 0 ∧ P.m03 = 0 ∧
     P.m10 = 0 ∧ P.m12 = 0 ∧ P.m13 = 0 ∧
     P.m20 = 0 ∧ P.m21 = 0 ∧ P.m30 = 0 ∧ P.m31 = 0) :=
  perspective_entries_C2 2 1 ⟨0, 0, 2⟩ ⟨0, 0, 0⟩ 90 1 10
    (by norm_num) (by norm_num) (by norm_num) (by norm_num)

/-- C3: for an eye-to-focus vector `(x, y, z)` with nonzero x-z planar
length and nonzero full length, `update` (invoked both by `Camera::new`
and by `set_position`) sets
`camera_matrix = azimuthal · orbital · translation` — the orbital matrix a
rotation about the world up axis with `cos = z/√(x²+z²)` and
`sin = x/√(x²+z²)`, the azimuthal matrix an elevation rotation with
`cos = √(x²+z²)/√(x²+y²+z²)` and `sin = y/√(x²+y²+z²)`, the translation
matrix moving the eye to the origin — and
`view_matrix = perspective_matrix · camera_matrix`. -/
theorem camera_update_C3 (c : Camera) (x y z : ℝ)
    (hx : x = c._focus.x - c._position.x)
    (hy : y = c._focus.y - c._position.y)
    (hz : z = c._focus.z - c._position.z)
    (hplanar : x*x + z*z ≠ 0) (hfull : x*x + y*y + z*z ≠ 0) :
    (c.update)._camera_matrix =
      (Matrix4.mul
        ⟨1, 0, 0, 0,
         0, Real.sqrt (x*x+z*z)/Real.sqrt (x*x+y*y+z*z),
            -(y/Real.sqrt (x*x+y*y+z*z)), 0,
         0, y/Real.sqrt (x*x+y*y+z*z),
            Real.sqrt (x*x+z*z)/Real.sqrt (x*x+y*y+z*z), 0,
         0, 0, 0, 1⟩
        ⟨z/Real.sqrt (x*x+z*z), 0, -(x/Real.sqrt (x*x+z*z)), 0,
         0, 1, 0, 0,
         x/Real.sqrt (x*x+z*z), 0, z/Real.sqrt (x*x+z*z), 0,
         0, 0, 0, 1⟩).mul
        ⟨1, 0, 0, -c._position.x,
         0, 1, 0, -c._position.y,
         0, 0, 1, -c._position.z,
         0, 0, 0, 1⟩ ∧
    (c.update)._view_matrix =
      c._perspective_matrix.mul ((c.update)._camera_matrix) := by
  subst hx hy hz
  constructor
  · show Matrix4.mul _ _ = _
    norm_num [Camera.update, Matrix4.mul, Matrix4.mk.injEq]
  · rfl

/-- Witness for C3 at a concrete camera with eye `(0,0,2)` and focus at
the origin, so `(x, y, z) = (0, 0, -2)`. -/
theorem camera_update_C3_witness :
    ((⟨⟨0, 0, 2⟩, ⟨0, 0, 0⟩, 90, 1, 10, Matrix4.zero, Matrix4.zero,
        Matrix4.zero⟩ : Camera).update)._camera_matrix =
      (Matrix4.mul
        ⟨1, 0, 0, 0,
         0, Real.sqrt (0*0+(-2)*(-2))/Real.sqrt (0*0+0*0+(-2)*(-2)),
            -((0:ℝ)/Real.sqrt (0*0+0*0+(-2)*(-2))), 0,
         0, (0:ℝ)/Real.sqrt (0*0+0*0+(-2)*(-2)),
            Real.sqrt (0*0+(-2)*(-2))/Real.sqrt (0*0+0*0+(-2)*(-2)), 0,
         0, 0, 0, 1⟩
        ⟨(-2)/Real.sqrt (0*0+(-2)*(-2)), 0, -((0:ℝ)/Real.sqrt (0*0+(-2)*(-2))), 0,
         0, 1, 0, 0,
         (0:ℝ)/Real.sqrt (0*0+(-2)*(-2)), 0, (-2)/Real.sqrt (0*0+(-2)*(-2)), 0,
         0, 0, 0, 1⟩).mul
        ⟨1, 0, 0, -(0:ℝ),
         0, 1, 0, -(0:ℝ),
         0, 0, 1, -(2:ℝ),
         0, 0, 0, 1⟩ :=
  (camera_update_C3
    ⟨⟨0, 0, 2⟩, ⟨0, 0, 0⟩, 90, 1, 10, Matrix4.zero, Matrix4.zero, Matrix4.zero⟩
    0 0 (-2) (by norm_num) (by norm_num) (by norm_num)
    (by norm_num) (by norm_num)).1

/-- C4: `set_position` mutates only the eye position and the two derived
matrices `camera_matrix`/`view_matrix`; the stored perspective matrix,
focus, field of view and clip planes are unchanged.  In particular the
camera built with eye `(0,0,2)`, focus `(0,0,0)`, `fov = 90`, `n = 1`,
`f = 10` (for any framebuffer dimensions) gets a different view matrix
after repositioning to `(2,0,0)` while its perspective matrix is
untouched. -/
theorem set_position_C4 :
    (∀ (c : Camera) (p : Vec3),
      (c.set_position p)._position = p ∧
      (c.set_position p)._perspective_matrix = c._perspective_matrix ∧
      (c.set_position p)._focus = c._focus ∧
      (c.set_position p)._field_of_view = c._field_of_view ∧
      (c.set_position p)._near_plane = c._near_plane ∧
      (c.set_position p)._far_plane = c._far_plane) ∧
    (∀ w h : ℝ,
      ((Camera.new w h ⟨0, 0, 2⟩ ⟨0, 0, 0⟩ 90 1 10).set_position
          ⟨2, 0, 0⟩)._view_matrix ≠
        (Camera.new w h ⟨0, 0, 2⟩ ⟨0, 0, 0⟩ 90 1 10)._view_matrix ∧
      ((Camera.new w h ⟨0, 0, 2⟩ ⟨0, 0, 0⟩ 90 1 10).set_position
          ⟨2, 0, 0⟩)._perspective_matrix =
        (Camera.new w h ⟨0, 0, 2⟩ ⟨0, 0, 0⟩ 90 1 10)._perspective_matrix) := by
  refine ⟨fun c p => ⟨rfl, rfl, rfl, rfl, rfl, rfl⟩, fun w h => ⟨?_, rfl⟩⟩
  intro heq
  have h4 : Real.sqrt 4 = 2 := by
    rw [show (4:ℝ) = 2^2 by norm_num]
    exact Real.sqrt_sq (by norm_num)
  have h30 := congrArg Matrix4.m30 heq
  norm_num [Camera.new, Camera.set_position, Camera.update, Matrix4.mul,
    h4] at h30

/-- C5 counterexample: the degenerate-orbit cases are not surfaced.  The
constructor's return type is a plain `Camera` (there is no failure
channel), and no fallback is applied: the source's `azimuthal_matrix`
always has first row `(1, 0, 0, 0)`, so under the claimed identity-orbital
fallback the camera matrix would have `m00 = 1`; instead, with eye = focus
(and likewise with the eye on the up axis, `x = z = 0`), the division by
the zero planar length propagates silently (`NaN` in IEEE `f32`, the junk
value `0` in the real model) and the computed camera matrix has
`m00 = 0`. -/
theorem degenerate_orbit_C5_counterexample :
    ((Camera.new 1 1 ⟨0, 0, 0⟩ ⟨0, 0, 0⟩ 90 1 10)._camera_matrix).m00 = 0 ∧
    ((Camera.new 1 1 ⟨0, 2, 0⟩ ⟨0, 0, 0⟩ 90 1 10)._camera_matrix).m00 = 0 ∧
    (0 : ℝ) ≠ 1 := by
  refine ⟨?_, ?_, by norm_num⟩ <;>
    norm_num [Camera.new, Camera.update, Matrix4.mul]

/-- C5 amended: whenever the eye-to-focus vector has `x = z = 0` (eye
coincides with focus, or lies on the up axis), `update` performs the same
division-based derivation with a zero planar length and silently produces
a degenerate camera matrix whose entire first row is zero (the real-model
image of the `NaN`-filled `f32` matrix); no failure is reported and no
fallback is applied. -/
theorem degenerate_orbit_C5 (c : Camera)
    (hx : c._focus.x - c._position.x = 0)
    (hz : c._focus.z - c._position.z = 0) :
    (c.update)._camera_matrix.m00 = 0 ∧ (c.update)._camera_matrix.m01 = 0 ∧
    (c.update)._camera_matrix.m02 = 0 ∧ (c.update)._camera_matrix.m03 = 0 := by
  norm_num [Camera.update, Matrix4.mul, hx, hz]

/-- Witness for C5 (amended) at the literal camera whose eye and focus
both sit at the origin. -/
theorem degenerate_orbit_C5_witness :
    ((⟨⟨0, 0, 0⟩, ⟨0, 0, 0⟩, 90, 1, 10, Matrix4.zero, Matrix4.zero,
        Matrix4.zero⟩ : Camera).update)._camera_matrix.m00 = 0 ∧
    ((⟨⟨0, 0, 0⟩, ⟨0, 0, 0⟩, 90, 1, 10, Matrix4.zero, Matrix4.zero,
        Matrix4.zero⟩ : Camera).update)._camera_matrix.m01 = 0 ∧
    ((⟨⟨0, 0, 0⟩, ⟨0, 0, 0⟩, 90, 1, 10, Matrix4.zero, Matrix4.zero,
        Matrix4.zero⟩ : Camera).update)._camera_matrix.m02 = 0 ∧
    ((⟨⟨0, 0, 0⟩, ⟨0, 0, 0⟩, 90, 1, 10, Matrix4.zero, Matrix4.zero,
        Matrix4.zero⟩ : Camera).update)._camera_matrix.m03 = 0 :=
  degenerate_orbit_C5
    ⟨⟨0, 0, 0⟩, ⟨0, 0, 0⟩, 90, 1, 10, Matrix4.zero, Matrix4.zero, Matrix4.zero⟩
    (by norm_num) (by norm_num)

/-- C6: `normalise` divides each of the four components by the Euclidean
norm of all four, and for a quaternion of nonzero norm the sum of squares
of the components after `normalise` equals `1`. -/
theorem normalise_unit_C6 (q : Quaternion) (hq : q.normSq ≠ 0) :
    (q.normalise = ⟨q.r / Real.sqrt q.normSq, q.i / Real.sqrt q.normSq,
        q.j / Real.sqrt q.normSq, q.k / Real.sqrt q.normSq⟩) ∧
    (q.normalise).normSq = 1 := by
  have h0 : 0 ≤ q.normSq := by
    have hr := mul_self_nonneg q.r
    have hi := mul_self_nonneg q.i
    have hj := mul_self_nonneg q.j
    have hk := mul_self_nonneg q.k
    simp only [Quaternion.normSq]
    linarith
  have hs : Real.sqrt q.normSq * Real.sqrt q.normSq = q.normSq :=
    Real.mul_self_sqrt h0
  have hne : Real.sqrt q.normSq ≠ 0 := by
    intro h
    exact hq (by rw [← hs, h, mul_zero])
  refine ⟨rfl, ?_⟩
  simp only [Quaternion.normalise, Quaternion.normSq] at *
  field_simp

/-- Witness for C6 at the concrete quaternion `(0, 3, 4, 0)`. -/
theorem normalise_unit_C6_witness :
    Quaternion.normSq ⟨0, 3, 4, 0⟩ ≠ 0 ∧
      (Quaternion.normalise ⟨0, 3, 4, 0⟩).normSq = 1 :=
  ⟨by norm_num [Quaternion.normSq],
   (normalise_unit_C6 ⟨0, 3, 4, 0⟩ (by norm_num [Quaternion.normSq])).2⟩

/-- C7: for a unit-norm quaternion the upper-left 3×3 block of
`rotation_matrix()` is orthonormal with determinant `+1`, the last row
and last column are `(0, 0, 0, 1)`, and for `(r, i, j, k) = (0, 1, 0, 0)`
the result is `diag(1, -1, -1, 1)`. -/
theorem rotation_matrix_C7 (q : Quaternion)
    (h : q.r*q.r + q.i*q.i + q.j*q.j + q.k*q.k = 1) :
    Matrix.transpose ((q.rotation_matrix).upperLeft3) *
        (q.rotation_matrix).upperLeft3 = 1 ∧
    ((q.rotation_matrix).upperLeft3).det = 1 ∧
    ((q.rotation_matrix).m03 = 0 ∧ (q.rotation_matrix).m13 = 0 ∧
     (q.rotation_matrix).m23 = 0 ∧ (q.rotation_matrix).m30 = 0 ∧
     (q.rotation_matrix).m31 = 0 ∧ (q.rotation_matrix).m32 = 0 ∧
     (q.rotation_matrix).m33 = 1) ∧
    Quaternion.rotation_matrix ⟨0, 1, 0, 0⟩ =
      ⟨1, 0, 0, 0, 0, -1, 0, 0, 0, 0, -1, 0, 0, 0, 0, 1⟩ := by
  refine ⟨?_, ?_, ?_, ?_⟩
  · ext a b
    fin_cases a <;> fin_cases b <;>
      simp [Matrix4.upperLeft3, Quaternion.rotation_matrix, Matrix.mul_apply,
        Fin.sum_univ_succ, Matrix.one_apply]
    · linear_combination (4*(q.j*q.j + q.k*q.k)) * h
    · linear_combination (-4*q.i*q.j) * h
    · linear_combination (-4*q.i*q.k) * h
    · linear_combination (-4*q.i*q.j) * h
    · linear_combination (4*(q.k*q.k + q.i*q.i)) * h
    · linear_combination (-4*q.j*q.k) * h
    · linear_combination (-4*q.i*q.k) * h
    · linear_combination (-4*q.j*q.k) * h
    · linear_combination (4*(q.i*q.i + q.j*q.j)) * h
  · rw [Matrix.det_fin_three]
    simp [Matrix4.upperLeft3, Quaternion.rotation_matrix]
    linear_combination (4*(q.i*q.i + q.j*q.j + q.k*q.k)) * h
  · norm_num [Quaternion.rotation_matrix]
  · simp only [Quaternion.rotation_matrix, Matrix4.mk.injEq]
    norm_num

/-- Witness for C7 at the unit quaternion `(0, 1, 0, 0)` (a 180°
rotation about the x axis). -/
theorem rotation_matrix_C7_witness :
    (Matrix.transpose ((Quaternion.rotation_matrix ⟨0, 1, 0, 0⟩).upperLeft3) *
        (Quaternion.rotation_matrix ⟨0, 1, 0, 0⟩).upperLeft3 = 1) ∧
    ((Quaternion.rotation_matrix ⟨0, 1, 0, 0⟩).upperLeft3).det = 1 ∧
    ((Quaternion.rotation_matrix ⟨0, 1, 0, 0⟩).m03 = 0 ∧
     (Quaternion.rotation_matrix ⟨0, 1, 0, 0⟩).m13 = 0 ∧
     (Quaternion.rotation_matrix ⟨0, 1, 0, 0⟩).m23 = 0 ∧
     (Quaternion.rotation_matrix ⟨0, 1, 0, 0⟩).m30 = 0 ∧
     (Quaternion.rotation_matrix ⟨0, 1, 0, 0⟩).m31 = 0 ∧
     (Quaternion.rotation_matrix ⟨0, 1, 0, 0⟩).m32 = 0 ∧
     (Quaternion.rotation_matrix ⟨0, 1, 0, 0⟩).m33 = 1) ∧
    Quaternion.rotation_matrix ⟨0, 1, 0, 0⟩ =
      ⟨1, 0, 0, 0, 0, -1, 0, 0, 0, 0, -1, 0, 0, 0, 0, 1⟩ :=
  rotation_matrix_C7 ⟨0, 1, 0, 0⟩ (by norm_num)

/-- C8: `right_multiply` computes the same product as the `Mul` operator,
and `left_multiply` computes that product with the arguments swapped. -/
theorem multiply_variants_agree_C8 (q p : Quaternion) :
    q.right_multiply p = q.mul p ∧ q.left_multiply p = p.mul q :=
  ⟨rfl, rfl⟩

/-- C9: `Atom::new` computes the body matrix at construction as
`diag(size, size, size, 1)` with the position in the last column; in
particular `size = 0.2`, `position = (0.5, -0.5, 0)` give diagonal
`(0.2, 0.2, 0.2, 1)` and last column `(0.5, -0.5, 0, 1)`. -/
theorem atom_body_matrix_C9 :
    (∀ (mesh : ℕ) (p : Vec3) (s : ℝ) (col : Vec3),
      (Atom.new mesh p s col)._body_matrix =
        ⟨s, 0, 0, p.x, 0, s, 0, p.y, 0, 0, s, p.z, 0, 0, 0, 1⟩) ∧
    (∀ (mesh : ℕ) (col : Vec3),
      (Atom.new mesh ⟨0.5, -0.5, 0⟩ 0.2 col)._body_matrix =
        ⟨0.2, 0, 0, 0.5, 0, 0.2, 0, -0.5, 0, 0, 0.2, 0, 0, 0, 0, 1⟩) := by
  refine ⟨fun mesh p s col => ?_, fun mesh col => ?_⟩ <;>
    simp only [Atom.new, Matrix4.mk.injEq] <;> norm_num

/-- C10: the sum of squares of the components of a Hamilton product is the
product of the sums of squares, so the product of two unit-norm
quaternions is unit-norm. -/
theorem mul_normSq_C10 :
    (∀ p q : Quaternion, (p.mul q).normSq = p.normSq * q.normSq) ∧
    (∀ p q : Quaternion, p.normSq = 1 → q.normSq = 1 → (p.mul q).normSq = 1) := by
  refine ⟨Quaternion.normSq_mul, fun p q hp hq => ?_⟩
  rw [Quaternion.normSq_mul, hp, hq, mul_one]

/-- Witness for C10 at the concrete unit quaternions `i` and `j`. -/
theorem mul_normSq_C10_witness :
    (Quaternion.mul ⟨0, 1, 0, 0⟩ ⟨0, 0, 1, 0⟩).normSq = 1 :=
  mul_normSq_C10.2 ⟨0, 1, 0, 0⟩ ⟨0, 0, 1, 0⟩
    (by norm_num [Quaternion.normSq]) (by norm_num [Quaternion.normSq])

end Furnace

end
